import Mathlib

/-!
Verification of the delta-detection and event-streaming core of the
`illu` repository (`illu.go`): the shared seen-set of story identifiers
(`lastSentStoryIDs`), the initial-batch sender
(`sendInitialHackerNewsStories`) and the periodic delta sender
(`sendDeltaHackerNewsStories`).

Shallow embedding conventions:
- the Go map `map[int]struct{}` guarding seen identifiers becomes a
  `Finset Int` (insertion of a present key leaves a Go map unchanged,
  matching `Finset.insert`);
- network fetches are modelled by oracles passed as arguments: the
  top-list fetch outcome is a `ListFetchResult`, the per-item fetch is a
  function `Int → ItemFetchResult` (covering transport failure, JSON
  decode failure, and success with a decoded item);
- SSE writes become an emitted `Event` list (`json.Marshal` of the
  `HNStory` struct, whose fields are ints and strings, cannot fail in Go,
  so encoding is modelled as total);
- for the session-teardown claims, a trace-level variant additionally
  records each item fetch and each write together with whether the
  transport delivered it.
-/

namespace Illu

/-- HNStory mirrors the Go struct of the same name (`illu.go` lines
19-26); the Go field `By` is rendered `by_` because `by` is a Lean
keyword. -/
structure HNStory where
  id : Int
  title : String
  url : String
  by_ : String
  score : Int
  type : String
deriving DecidableEq, Repr

/-- Outcome of fetching and decoding the top-stories list
(`illu.go` lines 256-271): transport error, JSON decode error, or a
decoded list of identifiers. -/
inductive ListFetchResult where
  | fetchError
  | decodeError
  | ok (ids : List Int)
deriving DecidableEq, Repr

/-- Outcome of fetching and decoding a single item
(`illu.go` lines 299-316): transport error, JSON decode error, or a
decoded story. -/
inductive ItemFetchResult where
  | fetchError
  | decodeError
  | ok (story : HNStory)
deriving DecidableEq, Repr

/-- Events written to the SSE client, one constructor per
`event:` kind emitted by `illu.go`. -/
inductive Event where
  | connected
  | newStory (id : Int) (story : HNStory)
  | noNewData
  | errorEvent
  | storyError (id : Int)
deriving DecidableEq, Repr

/-- Initial value of the shared seen-set `lastSentStoryIDs.ids`: the
`init` function (`illu.go` lines 57-59) creates an empty map. -/
def lastSentStoryIDsInit : Finset Int := ∅

/-- The seen-set loop of `sendDeltaHackerNewsStories` (`illu.go` lines
276-283), the operation the spec calls `markAndDiff`: for each candidate
identifier in order, if absent from the set append it to the result, and
in every case insert it into the set. Rendered as structural recursion
on the candidate list, threading the set left to right exactly as the Go
`for` loop does. -/
def markAndDiff (candidates : List Int) (seen : Finset Int) :
    List Int × Finset Int :=
  match candidates with
  | [] => ([], seen)
  | id :: rest =>
    let tail := markAndDiff rest (insert id seen)
    if id ∈ seen then tail else (id :: tail.1, tail.2)

/-- The delta result as the claim C1 words it: the subsequence of
candidates, in input order, that were absent from the seen set at the
start of the call. -/
def specDeltaResult (candidates : List Int) (seen : Finset Int) :
    List Int :=
  candidates.filter (fun id => decide (id ∉ seen))

theorem markAndDiff_snd (candidates : List Int) (seen : Finset Int) :
    (markAndDiff candidates seen).2 = seen ∪ candidates.toFinset := by
  induction candidates generalizing seen with
  | nil => simp [markAndDiff]
  | cons id rest ih =>
    simp only [markAndDiff]
    by_cases h : id ∈ seen
    · rw [if_pos h, ih, List.toFinset_cons, Finset.union_insert,
        Finset.insert_union]
    · rw [if_neg h]
      show (markAndDiff rest (insert id seen)).2 = _
      rw [ih, List.toFinset_cons, Finset.union_insert, Finset.insert_union]

theorem markAndDiff_subset_snd (candidates : List Int) (seen : Finset Int) :
    seen ⊆ (markAndDiff candidates seen).2 := by
  rw [markAndDiff_snd]
  exact Finset.subset_union_left

theorem mem_snd_of_mem_candidates {candidates : List Int}
    {seen : Finset Int} {x : Int} (h : x ∈ candidates) :
    x ∈ (markAndDiff candidates seen).2 := by
  rw [markAndDiff_snd, Finset.mem_union, List.mem_toFinset]
  exact Or.inr h

theorem mem_fst_markAndDiff {candidates : List Int} {seen : Finset Int}
    {x : Int} (h : x ∈ (markAndDiff candidates seen).1) :
    x ∈ candidates ∧ x ∉ seen := by
  induction candidates generalizing seen with
  | nil => simp [markAndDiff] at h
  | cons id rest ih =>
    simp only [markAndDiff] at h
    by_cases hmem : id ∈ seen
    · rw [if_pos hmem] at h
      obtain ⟨hc, hs⟩ := ih h
      exact ⟨List.mem_cons_of_mem _ hc, fun hx => hs (Finset.mem_insert_of_mem hx)⟩
    · rw [if_neg hmem] at h
      rcases List.mem_cons.mp h with rfl | h
      · exact ⟨List.mem_cons_self _ _, hmem⟩
      · obtain ⟨hc, hs⟩ := ih h
        exact ⟨List.mem_cons_of_mem _ hc, fun hx => hs (Finset.mem_insert_of_mem hx)⟩

theorem markAndDiff_fst_of_nodup {candidates : List Int}
    (h : candidates.Nodup) (seen : Finset Int) :
    (markAndDiff candidates seen).1 = specDeltaResult candidates seen := by
  induction candidates generalizing seen with
  | nil => rfl
  | cons id rest ih =>
    obtain ⟨hid, hrest⟩ := List.nodup_cons.mp h
    have hcongr : specDeltaResult rest (insert id seen) =
        specDeltaResult rest seen := by
      unfold specDeltaResult
      refine List.filter_congr ?_
      intro x hx
      have hne : x ≠ id := fun hEq => hid (hEq ▸ hx)
      simp [Finset.mem_insert, hne]
    simp only [markAndDiff]
    by_cases hmem : id ∈ seen
    · rw [if_pos hmem, Finset.insert_eq_self.mpr hmem, ih hrest]
      unfold specDeltaResult
      simp [hmem]
    · rw [if_neg hmem]
      show id :: (markAndDiff rest (insert id seen)).1 = _
      rw [ih hrest, hcongr]
      unfold specDeltaResult
      simp [hmem]

theorem markAndDiff_fst_nil_of_subset {candidates : List Int}
    {seen : Finset Int} (h : ∀ id ∈ candidates, id ∈ seen) :
    (markAndDiff candidates seen).1 = [] := by
  rcases hE : (markAndDiff candidates seen).1 with _ | ⟨x, rest⟩
  · rfl
  · exfalso
    have hx : x ∈ (markAndDiff candidates seen).1 := by
      rw [hE]; exact List.mem_cons_self _ _
    obtain ⟨hc, hs⟩ := mem_fst_markAndDiff hx
    exact hs (h x hc)

theorem markAndDiff_snd_of_subset {candidates : List Int}
    {seen : Finset Int} (h : ∀ id ∈ candidates, id ∈ seen) :
    (markAndDiff candidates seen).2 = seen := by
  rw [markAndDiff_snd]
  refine Finset.union_eq_left.mpr ?_
  intro x hx
  exact h x (List.mem_toFinset.mp hx)

/-- Maximum number of delta stories delivered per periodic cycle
(`illu.go` line 294, `const maxNewStoriesToSend = 5`). -/
def maxNewStoriesToSend : Nat := 5

/-- Maximum number of stories delivered by the initial phase
(`illu.go` line 196, `const initialStoriesLimit = 10`). -/
def initialStoriesLimit : Nat := 10

/-- Delivery of one delta story identifier (`illu.go` lines 299-337):
a failed item fetch or decode emits a `story-error` event and skips the
identifier; a decoded item whose type is not `story` or with an empty
title or URL is silently skipped; otherwise an `id:`-tagged `new-story`
event carrying the decoded story is written. -/
def deliverStory (fetch : Int → ItemFetchResult) (id : Int) :
    List Event :=
  match fetch id with
  | .fetchError => [.storyError id]
  | .decodeError => [.storyError id]
  | .ok story =>
    if story.type ≠ "story" ∨ story.title = "" ∨ story.url = "" then []
    else [.newStory story.id story]

/-- The periodic delta cycle `sendDeltaHackerNewsStories` (`illu.go`
lines 252-338): a list-level fetch or decode failure emits one `error`
event and returns with the seen set untouched; otherwise the seen-set
loop (`markAndDiff`) runs over all fetched identifiers, an empty delta
emits one `no-new-data` event, and a non-empty delta is truncated to
`maxNewStoriesToSend` and delivered identifier by identifier in upstream
order. Returns the emitted events and the updated seen set. -/
def sendDeltaHackerNewsStories (listResult : ListFetchResult)
    (fetch : Int → ItemFetchResult) (seen : Finset Int) :
    List Event × Finset Int :=
  match listResult with
  | .fetchError => ([.errorEvent], seen)
  | .decodeError => ([.errorEvent], seen)
  | .ok currentStoryIDs =>
    if (markAndDiff currentStoryIDs seen).1.length = 0 then
      ([.noNewData], (markAndDiff currentStoryIDs seen).2)
    else
      ((((markAndDiff currentStoryIDs seen).1.take maxNewStoriesToSend).map
          (deliverStory fetch)).flatten,
        (markAndDiff currentStoryIDs seen).2)

/-- One iteration of the initial-phase story loop (`illu.go` lines
202-247): fetch/decode failures emit a `story-error` event; items that
fail validation are skipped silently; a delivered story has its decoded
identifier `story.ID` inserted into the seen set (`illu.go` line 246) —
identifiers of skipped items are NOT inserted. -/
def processInitialStory (fetch : Int → ItemFetchResult)
    (acc : List Event × Finset Int) (id : Int) : List Event × Finset Int :=
  match fetch id with
  | .fetchError => (acc.1 ++ [.storyError id], acc.2)
  | .decodeError => (acc.1 ++ [.storyError id], acc.2)
  | .ok story =>
    if story.type ≠ "story" ∨ story.title = "" ∨ story.url = "" then acc
    else (acc.1 ++ [.newStory story.id story], insert story.id acc.2)

/-- The initial batch sender `sendInitialHackerNewsStories` (`illu.go`
lines 171-248): a list-level fetch or decode failure emits one `error`
event and aborts; otherwise the fetched identifier list is truncated to
`initialStoriesLimit` and each surviving identifier is processed in
order by `processInitialStory`. Returns the emitted events and the
updated seen set. -/
def sendInitialHackerNewsStories (listResult : ListFetchResult)
    (fetch : Int → ItemFetchResult) (seen : Finset Int) :
    List Event × Finset Int :=
  match listResult with
  | .fetchError => ([.errorEvent], seen)
  | .decodeError => ([.errorEvent], seen)
  | .ok currentStoryIDs =>
    (currentStoryIDs.take initialStoriesLimit).foldl
      (processInitialStory fetch) ([], seen)

/-- Recognizer for `new-story` events. -/
def Event.isNewStory : Event → Bool
  | .newStory _ _ => true
  | _ => false

/-- Number of `new-story` events in an emitted event list. -/
def countNewStory (events : List Event) : Nat :=
  events.countP Event.isNewStory

example :
    markAndDiff [1, 2, 3, 4] ({1, 2, 3} : Finset Int) =
      ([4], {1, 2, 3, 4}) := by decide

example : markAndDiff [7, 7] (∅ : Finset Int) = ([7], {7}) := by decide

/-- Observable actions of a periodic cycle at the transport level: an
item fetch issued over HTTP, or a write of one SSE event, recording in
`delivered` whether the transport actually carried it (the Go code
discards the error value `fmt.Fprintf` returns, so `delivered` never
influences control flow). -/
inductive Action where
  | fetchStory (id : Int)
  | write (e : Event) (delivered : Bool)
deriving DecidableEq, Repr

/-- Trace-level delivery of one delta story identifier: the same
control flow as `deliverStory` (`illu.go` lines 299-337), recording the
issued item fetch and each write with its delivery flag. A write to a
closed transport fails, but the code never inspects the failure. -/
def deliverStoryTrace (closed : Bool) (fetch : Int → ItemFetchResult)
    (id : Int) : List Action :=
  Action.fetchStory id ::
    match fetch id with
    | .fetchError => [.write (.storyError id) (!closed)]
    | .decodeError => [.write (.storyError id) (!closed)]
    | .ok story =>
      if story.type ≠ "story" ∨ story.title = "" ∨ story.url = "" then []
      else [.write (.newStory story.id story) (!closed)]

/-- Trace-level periodic cycle: the same control flow as
`sendDeltaHackerNewsStories` (`illu.go` lines 252-338), recording item
fetches and writes with their delivery flags. `closed` is the state of
the client transport for the whole cycle. -/
def sendDeltaTrace (closed : Bool) (listResult : ListFetchResult)
    (fetch : Int → ItemFetchResult) (seen : Finset Int) :
    List Action × Finset Int :=
  match listResult with
  | .fetchError => ([.write .errorEvent (!closed)], seen)
  | .decodeError => ([.write .errorEvent (!closed)], seen)
  | .ok currentStoryIDs =>
    if (markAndDiff currentStoryIDs seen).1.length = 0 then
      ([.write .noNewData (!closed)], (markAndDiff currentStoryIDs seen).2)
    else
      ((((markAndDiff currentStoryIDs seen).1.take maxNewStoriesToSend).map
          (deliverStoryTrace closed fetch)).flatten,
        (markAndDiff currentStoryIDs seen).2)

/-- Erase the delivery flag of a write action, for comparing the
actions a cycle performs on an open transport with those it performs on
a closed one. -/
def Action.shape : Action → Action
  | .write e _ => .write e true
  | a => a

/-- One iteration of the `select` loop in `hnEventsHandler`
(`illu.go` lines 157-166) is driven by one of two signals: the 120
second ticker fires (carrying the fetch outcomes of this tick as the oracle)
or the request context is cancelled because the client disconnected. -/
inductive LoopSignal where
  | tick (listResult : ListFetchResult) (fetch : Int → ItemFetchResult)
  | ctxDone

/-- The `select` loop of `hnEventsHandler` (`illu.go` lines 157-166),
run over a finite prefix of loop signals: each tick runs one periodic
delta cycle (`sendDeltaHackerNewsStories`, traced); a context
cancellation returns from the handler, so no signal after it is
processed. Returns the concatenated action trace. -/
def hnEventsLoop (closed : Bool) (signals : List LoopSignal)
    (seen : Finset Int) : List Action :=
  match signals with
  | [] => []
  | .ctxDone :: _ => []
  | .tick listResult fetch :: rest =>
    (sendDeltaTrace closed listResult fetch seen).1 ++
      hnEventsLoop closed rest (sendDeltaTrace closed listResult fetch seen).2

/-- The behavior claim C9 ascribes to the session loop, as a predicate
on the action trace of one cycle: as soon as one write fails (transport
closed), no further fetch or write action occurs. -/
def haltsOnFailedWrite : List Action → Bool
  | [] => true
  | .write _ false :: rest => rest.isEmpty
  | _ :: rest => haltsOnFailedWrite rest

/-- A serialized sequence of periodic delta computations on the shared
seen set: the lock on `lastSentStoryIDs` (`illu.go` lines 273-274)
totally orders the seen-set loops of all sessions, so any interleaving
of sessions is some list of `markAndDiff` calls threading the set. The
first component collects the new-identifier list returned by each call. -/
def runDeltaCalls (calls : List (List Int)) (seen : Finset Int) :
    List (List Int) × Finset Int :=
  match calls with
  | [] => ([], seen)
  | c :: rest =>
    ((markAndDiff c seen).1 ::
        (runDeltaCalls rest (markAndDiff c seen).2).1,
      (runDeltaCalls rest (markAndDiff c seen).2).2)

theorem not_mem_runDeltaCalls_of_mem_seen {calls : List (List Int)}
    {seen : Finset Int} {x : Int} (hx : x ∈ seen) :
    ∀ r ∈ (runDeltaCalls calls seen).1, x ∉ r := by
  induction calls generalizing seen with
  | nil =>
    intro r hr
    simp [runDeltaCalls] at hr
  | cons c rest ih =>
    intro r hr
    simp only [runDeltaCalls] at hr
    rcases List.mem_cons.mp hr with rfl | hr
    · intro hmem
      exact (mem_fst_markAndDiff hmem).2 hx
    · exact ih (markAndDiff_subset_snd c seen hx) r hr

/-- A concrete valid story carrying a given identifier, used in
counterexamples and witnesses. -/
def sampleStory (id : Int) : HNStory :=
  { id := id, title := "T", url := "http://x", by_ := "a",
    score := 1, type := "story" }

/-- A concrete item of kind `job` carrying a given identifier: it
decodes fine but fails validation. -/
def sampleJob (id : Int) : HNStory :=
  { id := id, title := "T", url := "http://x", by_ := "a",
    score := 1, type := "job" }

/-- A fetch oracle used for concrete counterexamples: every identifier
resolves to a valid story carrying that identifier. -/
def validStoryFetch : Int → ItemFetchResult := fun id =>
  .ok (sampleStory id)

/-- A fetch oracle used for concrete counterexamples: every identifier
resolves to an item that decodes fine but fails validation (its type is
`job`, not `story`). -/
def jobItemFetch : Int → ItemFetchResult := fun id =>
  .ok (sampleJob id)

theorem subset_sendDelta_snd (l : ListFetchResult)
    (f : Int → ItemFetchResult) (s : Finset Int) :
    s ⊆ (sendDeltaHackerNewsStories l f s).2 := by
  cases l with
  | fetchError => exact fun x hx => hx
  | decodeError => exact fun x hx => hx
  | ok ids =>
    simp only [sendDeltaHackerNewsStories]
    by_cases h : (markAndDiff ids s).1.length = 0
    · rw [if_pos h]
      exact markAndDiff_subset_snd ids s
    · rw [if_neg h]
      exact markAndDiff_subset_snd ids s

theorem subset_processInitialStory_foldl (fetch : Int → ItemFetchResult)
    (l : List Int) (acc : List Event × Finset Int) :
    acc.2 ⊆ (l.foldl (processInitialStory fetch) acc).2 := by
  induction l generalizing acc with
  | nil => exact fun x hx => hx
  | cons id rest ih =>
    rw [List.foldl_cons]
    refine Finset.Subset.trans ?_ (ih (processInitialStory fetch acc id))
    cases hf : fetch id with
    | fetchError =>
      simp only [processInitialStory, hf]
      exact fun x hx => hx
    | decodeError =>
      simp only [processInitialStory, hf]
      exact fun x hx => hx
    | ok story =>
      simp only [processInitialStory, hf]
      by_cases hc : story.type ≠ "story" ∨ story.title = "" ∨ story.url = ""
      · rw [if_pos hc]
      · rw [if_neg hc]
        exact Finset.subset_insert _ _

theorem subset_sendInitial_snd (l : ListFetchResult)
    (f : Int → ItemFetchResult) (s : Finset Int) :
    s ⊆ (sendInitialHackerNewsStories l f s).2 := by
  cases l with
  | fetchError => exact fun x hx => hx
  | decodeError => exact fun x hx => hx
  | ok ids =>
    exact subset_processInitialStory_foldl f (ids.take initialStoriesLimit)
      ([], s)

theorem countNewStory_deliverStory (fetch : Int → ItemFetchResult)
    (id : Int) : countNewStory (deliverStory fetch id) ≤ 1 := by
  unfold countNewStory
  cases hf : fetch id with
  | fetchError => simp [deliverStory, hf, Event.isNewStory]
  | decodeError => simp [deliverStory, hf, Event.isNewStory]
  | ok story =>
    simp only [deliverStory, hf]
    by_cases hc : story.type ≠ "story" ∨ story.title = "" ∨ story.url = ""
    · rw [if_pos hc]; simp
    · rw [if_neg hc]; simp [Event.isNewStory]

theorem countNewStory_flatten_deliver (fetch : Int → ItemFetchResult)
    (l : List Int) :
    countNewStory ((l.map (deliverStory fetch)).flatten) ≤ l.length := by
  induction l with
  | nil => simp [countNewStory]
  | cons id rest ih =>
    rw [List.map_cons, List.flatten_cons]
    unfold countNewStory
    rw [List.countP_append, List.length_cons]
    have h1 := countNewStory_deliverStory fetch id
    unfold countNewStory at h1 ih
    omega

theorem processInitialStory_foldl_snd (fetch : Int → ItemFetchResult)
    {l : List Int}
    (h : ∀ id ∈ l, ∃ story, fetch id = .ok story ∧
      story.type = "story" ∧ story.title ≠ "" ∧ story.url ≠ "" ∧
      story.id = id)
    (acc : List Event × Finset Int) :
    (l.foldl (processInitialStory fetch) acc).2 = acc.2 ∪ l.toFinset := by
  induction l generalizing acc with
  | nil => simp
  | cons id rest ih =>
    obtain ⟨story, hfetch, htype, htitle, hurl, hid⟩ :=
      h id (List.mem_cons_self _ _)
    have hcond : ¬ (story.type ≠ "story" ∨ story.title = "" ∨
        story.url = "") := by
      push_neg
      exact ⟨htype, htitle, hurl⟩
    have hstep : processInitialStory fetch acc id =
        (acc.1 ++ [.newStory story.id story], insert story.id acc.2) := by
      simp only [processInitialStory, hfetch]
      rw [if_neg hcond]
    rw [List.foldl_cons, hstep,
      ih (fun i hi => h i (List.mem_cons_of_mem _ hi))]
    rw [List.toFinset_cons, hid]
    simp only [Finset.union_insert, Finset.insert_union]

theorem deliverStory_eq_nil_of_invalid {fetch : Int → ItemFetchResult}
    {id : Int}
    (h : ∃ story, fetch id = .ok story ∧
      (story.type ≠ "story" ∨ story.title = "" ∨ story.url = "")) :
    deliverStory fetch id = [] := by
  obtain ⟨story, hfetch, hbad⟩ := h
  simp only [deliverStory, hfetch]
  rw [if_pos hbad]

theorem deliverStoryTrace_shape (fetch : Int → ItemFetchResult)
    (id : Int) :
    (deliverStoryTrace true fetch id).map Action.shape =
      (deliverStoryTrace false fetch id).map Action.shape := by
  cases hf : fetch id with
  | fetchError => simp [deliverStoryTrace, hf, Action.shape]
  | decodeError => simp [deliverStoryTrace, hf, Action.shape]
  | ok story =>
    simp only [deliverStoryTrace, hf]
    by_cases hc : story.type ≠ "story" ∨ story.title = "" ∨ story.url = ""
    · rw [if_pos hc, if_pos hc]
    · rw [if_neg hc, if_neg hc]
      simp [Action.shape]

theorem sendDeltaTrace_shape (l : ListFetchResult)
    (f : Int → ItemFetchResult) (s : Finset Int) :
    (sendDeltaTrace true l f s).1.map Action.shape =
      (sendDeltaTrace false l f s).1.map Action.shape := by
  cases l with
  | fetchError => rfl
  | decodeError => rfl
  | ok ids =>
    simp only [sendDeltaTrace]
    by_cases h : (markAndDiff ids s).1.length = 0
    · rw [if_pos h, if_pos h]
      simp [Action.shape]
    · rw [if_neg h, if_neg h]
      rw [List.map_flatten, List.map_flatten, List.map_map, List.map_map]
      refine congrArg List.flatten ?_
      refine List.map_congr_left ?_
      intro id _
      exact deliverStoryTrace_shape f id

theorem sendDeltaTrace_snd (l : ListFetchResult)
    (f : Int → ItemFetchResult) (s : Finset Int) (closed : Bool) :
    (sendDeltaTrace closed l f s).2 = (sendDeltaTrace false l f s).2 := by
  cases l with
  | fetchError => rfl
  | decodeError => rfl
  | ok ids =>
    simp only [sendDeltaTrace]
    by_cases h : (markAndDiff ids s).1.length = 0
    · rw [if_pos h, if_pos h]
    · rw [if_neg h, if_neg h]

/-- C1 counterexample: the claim says the delta result is exactly the
subsequence of candidates (in input order) that were absent from the
seen set at the start of the call; with the duplicated candidate list
[7, 7] against an empty seen set that subsequence is [7, 7], but the
code returns [7] — the first occurrence inserts 7, so the second
occurrence is no longer new. -/
theorem markAndDiff_contract_counterexample :
    (markAndDiff [7, 7] (∅ : Finset Int)).1 ≠
      specDeltaResult [7, 7] (∅ : Finset Int) := by
  decide

/-- C1 (amended to duplicate-free candidate sequences): for every
candidate sequence without duplicate identifiers and every prior seen
set, the delta loop of `sendDeltaHackerNewsStories` returns exactly the
subsequence of candidates, in input order, that were absent from the
seen set at the start of the call, and afterwards every candidate
identifier (new or not) is present in the seen set. -/
theorem markAndDiff_contract (candidates : List Int) (seen : Finset Int)
    (h : candidates.Nodup) :
    (markAndDiff candidates seen).1 = specDeltaResult candidates seen ∧
    ∀ id ∈ candidates, id ∈ (markAndDiff candidates seen).2 := by
  refine ⟨markAndDiff_fst_of_nodup h seen, ?_⟩
  intro id hid
  exact mem_snd_of_mem_candidates hid

/-- C1 witness: the contract evaluated at candidates [1, 2, 3] against
the seen set containing only 2. -/
theorem markAndDiff_contract_witness :
    (markAndDiff [1, 2, 3] ({2} : Finset Int)).1 =
      specDeltaResult [1, 2, 3] ({2} : Finset Int) ∧
    ∀ id ∈ [(1 : Int), 2, 3],
      id ∈ (markAndDiff [1, 2, 3] ({2} : Finset Int)).2 :=
  markAndDiff_contract [1, 2, 3] {2} (by decide)

/-- C2: for any serialized sequence of delta computations on the shared
seen set, starting from any prior state, the returned new-identifier
lists are pairwise disjoint — no identifier appears in the delta result
of two different calls, so it is never reported as new to two different
sessions. -/
theorem runDeltaCalls_pairwise_disjoint (calls : List (List Int))
    (seen : Finset Int) :
    List.Pairwise (fun r s => ∀ x ∈ r, x ∉ s)
      (runDeltaCalls calls seen).1 := by
  induction calls generalizing seen with
  | nil => simp [runDeltaCalls]
  | cons c rest ih =>
    simp only [runDeltaCalls]
    refine List.Pairwise.cons ?_ (ih _)
    intro r hr x hx
    have hxs : x ∈ (markAndDiff c seen).2 :=
      mem_snd_of_mem_candidates (mem_fst_markAndDiff hx).1
    exact not_mem_runDeltaCalls_of_mem_seen hxs r hr

/-- C3: the seen set starts empty at process start; the initial phase
and the periodic delta cycle only ever add identifiers (every
previously present identifier survives every call, including the error
paths, which leave the set untouched); and re-inserting an identifier
already present leaves the set unchanged. -/
theorem seenSet_monotone :
    lastSentStoryIDsInit = (∅ : Finset Int) ∧
    (∀ (l : ListFetchResult) (f : Int → ItemFetchResult) (s : Finset Int),
      s ⊆ (sendInitialHackerNewsStories l f s).2) ∧
    (∀ (l : ListFetchResult) (f : Int → ItemFetchResult) (s : Finset Int),
      s ⊆ (sendDeltaHackerNewsStories l f s).2) ∧
    (∀ (id : Int) (s : Finset Int), id ∈ s →
      (markAndDiff [id] s).2 = s) := by
  refine ⟨rfl, subset_sendInitial_snd, subset_sendDelta_snd, ?_⟩
  intro id s hid
  exact markAndDiff_snd_of_subset (fun x hx => by
    rcases List.mem_singleton.mp hx with rfl
    exact hid)

/-- C3 witness: monotonicity and idempotent re-insertion evaluated at
concrete states, the last conjunct at identifier 5 already present in
the set containing 5. -/
theorem seenSet_monotone_witness :
    ({4} : Finset Int) ⊆
      (sendDeltaHackerNewsStories (.ok [1]) validStoryFetch {4}).2 ∧
    (markAndDiff [5] ({5} : Finset Int)).2 = {5} :=
  ⟨seenSet_monotone.2.2.1 (.ok [1]) validStoryFetch {4},
    seenSet_monotone.2.2.2 5 {5} (by decide)⟩

/-- C4 counterexample: the claim says calling the delta computation on
X twice from an empty seen set yields X the first time; with the
duplicated sequence X = [9, 9] the first call yields [9], not
[9, 9]. -/
theorem markAndDiff_algebra_counterexample :
    (markAndDiff [9, 9] (∅ : Finset Int)).1 ≠ [9, 9] := by
  decide

/-- C4 (amended to duplicate-free sequences): for duplicate-free
identifier sequences A and B with A a subset of B, running the delta
computation on A and then on B from an empty seen set returns, in the
second call, exactly B with the elements of A removed (set difference,
order preserved from B); and for any duplicate-free X, running the
delta computation on X twice from an empty seen set yields X the first
time and the empty sequence the second time. -/
theorem markAndDiff_algebra (A B : List Int) (_hA : A.Nodup)
    (hB : B.Nodup) (_hAB : ∀ x ∈ A, x ∈ B) :
    ((markAndDiff B (markAndDiff A (∅ : Finset Int)).2).1 =
      B.filter (fun id => decide (id ∉ A))) ∧
    (∀ X : List Int, X.Nodup →
      (markAndDiff X (∅ : Finset Int)).1 = X ∧
      (markAndDiff X (markAndDiff X (∅ : Finset Int)).2).1 = []) := by
  constructor
  · rw [markAndDiff_fst_of_nodup hB]
    unfold specDeltaResult
    refine List.filter_congr ?_
    intro x _
    rw [markAndDiff_snd]
    simp
  · intro X hX
    constructor
    · rw [markAndDiff_fst_of_nodup hX]
      unfold specDeltaResult
      simp
    · refine markAndDiff_fst_nil_of_subset ?_
      intro id hid
      exact mem_snd_of_mem_candidates hid

/-- C4 witness: the set-difference law evaluated at A = [1],
B = [1, 2] (second call returns [2]) and the idempotence law at
X = [1, 2]. -/
theorem markAndDiff_algebra_witness :
    ((markAndDiff [1, 2] (markAndDiff [1] (∅ : Finset Int)).2).1 =
      [1, 2].filter (fun id => decide (id ∉ [(1 : Int)]))) ∧
    (∀ X : List Int, X.Nodup →
      (markAndDiff X (∅ : Finset Int)).1 = X ∧
      (markAndDiff X (markAndDiff X (∅ : Finset Int)).2).1 = []) :=
  markAndDiff_algebra [1] [1, 2] (by decide) (by decide) (by decide)

/-- C5: a list-level fetch failure or decode failure during a periodic
cycle emits exactly one `error` event — no `new-story`, no
`no-new-data` — and leaves the seen set completely unchanged. -/
theorem deltaCycle_list_failure :
    ∀ (fetch : Int → ItemFetchResult) (seen : Finset Int),
      sendDeltaHackerNewsStories .fetchError fetch seen =
        ([.errorEvent], seen) ∧
      sendDeltaHackerNewsStories .decodeError fetch seen =
        ([.errorEvent], seen) :=
  fun _ _ => ⟨rfl, rfl⟩

/-- C6 counterexample: the claim says the initial phase feeds every
identifier of the truncated batch into the seen set; but the code
(`illu.go` line 246) inserts an identifier only after the item is
fetched, decoded, validated and delivered, so with upstream list [1]
whose item decodes to a `job` (validation fails) the seen set is still
empty afterwards. -/
theorem initialSeeding_counterexample :
    (1 : Int) ∉
      (sendInitialHackerNewsStories (.ok [1]) jobItemFetch
        (∅ : Finset Int)).2 := by
  decide

/-- C6 (amended): the initial phase processes exactly the first
min(|L|, 10) identifiers in order, and inserts into the seen set the
identifier of each item that is successfully fetched, decoded and
validated — items that fail are not inserted. In particular, when every
item of the truncated batch resolves to a valid story carrying its own
identifier, the seen set afterwards gains exactly the truncated batch
(e.g. upstream list [1, 2, 3] leaves the seen set containing
{1, 2, 3}). -/
theorem initialSeeding (L : List Int) (fetch : Int → ItemFetchResult)
    (seen : Finset Int)
    (h : ∀ id ∈ L.take initialStoriesLimit, ∃ story,
      fetch id = .ok story ∧ story.type = "story" ∧
      story.title ≠ "" ∧ story.url ≠ "" ∧ story.id = id) :
    (sendInitialHackerNewsStories (.ok L) fetch seen).2 =
      seen ∪ (L.take initialStoriesLimit).toFinset :=
  processInitialStory_foldl_snd fetch h ([], seen)

/-- C6 witness: with upstream list [1, 2, 3] and every item a valid
story, the initial phase leaves the seen set equal to {1, 2, 3}. -/
theorem initialSeeding_witness :
    (sendInitialHackerNewsStories (.ok [1, 2, 3]) validStoryFetch
      (∅ : Finset Int)).2 =
      (∅ : Finset Int) ∪ ([(1 : Int), 2, 3].take initialStoriesLimit).toFinset :=
  initialSeeding [1, 2, 3] validStoryFetch ∅ (by
    intro id _
    refine ⟨sampleStory id, rfl, rfl, ?_, ?_, rfl⟩
    · exact (by decide : ("T" : String) ≠ "")
    · exact (by decide : ("http://x" : String) ≠ ""))

/-- C7: every periodic cycle emits at most 5 `new-story` events, yet
every identifier of the fetched list — including new identifiers beyond
the bound that are never delivered — ends up in the seen set, so no
later delta computation (of any session sharing the set) ever reports
any of them as new again. -/
theorem deltaCycle_bound_vs_marking (L : List Int)
    (fetch : Int → ItemFetchResult) (seen : Finset Int) :
    countNewStory (sendDeltaHackerNewsStories (.ok L) fetch seen).1 ≤
      maxNewStoriesToSend ∧
    (∀ id ∈ L, id ∈ (sendDeltaHackerNewsStories (.ok L) fetch seen).2) ∧
    (∀ id ∈ L, ∀ later : List Int,
      id ∉ (markAndDiff later
        (sendDeltaHackerNewsStories (.ok L) fetch seen).2).1) := by
  have hsnd : (sendDeltaHackerNewsStories (.ok L) fetch seen).2 =
      (markAndDiff L seen).2 := by
    simp only [sendDeltaHackerNewsStories]
    by_cases h : (markAndDiff L seen).1.length = 0
    · rw [if_pos h]
    · rw [if_neg h]
  refine ⟨?_, ?_, ?_⟩
  · simp only [sendDeltaHackerNewsStories]
    by_cases h : (markAndDiff L seen).1.length = 0
    · rw [if_pos h]
      simp [countNewStory, Event.isNewStory]
    · rw [if_neg h]
      refine le_trans (countNewStory_flatten_deliver fetch _) ?_
      rw [List.length_take]
      exact Nat.min_le_left _ _
  · intro id hid
    rw [hsnd]
    exact mem_snd_of_mem_candidates hid
  · intro id hid later hmem
    refine (mem_fst_markAndDiff hmem).2 ?_
    rw [hsnd]
    exact mem_snd_of_mem_candidates hid

/-- C7 witness: the bound and the marking evaluated at the fetched
list [1, 2] from an empty seen set. -/
theorem deltaCycle_bound_vs_marking_witness :
    countNewStory
      (sendDeltaHackerNewsStories (.ok [1, 2]) validStoryFetch
        (∅ : Finset Int)).1 ≤ maxNewStoriesToSend ∧
    (∀ id ∈ [(1 : Int), 2], id ∈
      (sendDeltaHackerNewsStories (.ok [1, 2]) validStoryFetch
        (∅ : Finset Int)).2) ∧
    (∀ id ∈ [(1 : Int), 2], ∀ later : List Int,
      id ∉ (markAndDiff later
        (sendDeltaHackerNewsStories (.ok [1, 2]) validStoryFetch
          (∅ : Finset Int)).2).1) :=
  deltaCycle_bound_vs_marking [1, 2] validStoryFetch ∅

/-- C8: whenever a periodic cycle fetches a list all of whose
identifiers are already in the seen set, the cycle emits exactly one
`no-new-data` event — no `new-story` — and the seen set is
unchanged. -/
theorem deltaCycle_heartbeat (L : List Int)
    (fetch : Int → ItemFetchResult) (seen : Finset Int)
    (h : ∀ id ∈ L, id ∈ seen) :
    sendDeltaHackerNewsStories (.ok L) fetch seen =
      ([.noNewData], seen) := by
  have h1 : (markAndDiff L seen).1 = [] :=
    markAndDiff_fst_nil_of_subset h
  have h2 : (markAndDiff L seen).2 = seen :=
    markAndDiff_snd_of_subset h
  simp [sendDeltaHackerNewsStories, h1, h2]

/-- C8 witness: the seen set {1, 2, 3} receiving the unchanged list
[1, 2, 3] emits one heartbeat and keeps the set intact. -/
theorem deltaCycle_heartbeat_witness :
    sendDeltaHackerNewsStories (.ok [1, 2, 3]) validStoryFetch
      ({1, 2, 3} : Finset Int) = ([.noNewData], {1, 2, 3}) :=
  deltaCycle_heartbeat [1, 2, 3] validStoryFetch {1, 2, 3} (by decide)

/-- C9 counterexample: the claim says a write to a closed transport
fails and the session loop then stops issuing further feed fetches and
writes; but the code discards the error `fmt.Fprintf` returns, so with
a closed transport and two new identifiers the cycle still issues the
second item fetch and the second write after the first write has
already failed — the trace does not halt at the failed write. -/
theorem writeError_teardown_counterexample :
    haltsOnFailedWrite
      (sendDeltaTrace true (.ok [1, 2]) validStoryFetch
        (∅ : Finset Int)).1 = false ∧
    (sendDeltaTrace true (.ok [1, 2]) validStoryFetch
      (∅ : Finset Int)).1 =
      [.fetchStory 1,
        .write (.newStory 1 (sampleStory 1)) false,
        .fetchStory 2,
        .write (.newStory 2 (sampleStory 2)) false] := by
  decide

/-- C9 (amended): write failures are invisible to the cycle — the code
discards the error value of every emit, so a periodic cycle performs
the same fetches and writes (same action sequence up to the delivery
flag) and the same seen-set update whether the transport is open or
closed, with no retry or buffering; the session is torn down by the
context-cancellation branch of the handler loop, after which no further
cycle runs. -/
theorem writeError_ignored_teardown_by_ctxDone :
    (∀ (l : ListFetchResult) (f : Int → ItemFetchResult)
        (s : Finset Int),
      (sendDeltaTrace true l f s).1.map Action.shape =
        (sendDeltaTrace false l f s).1.map Action.shape ∧
      (sendDeltaTrace true l f s).2 = (sendDeltaTrace false l f s).2) ∧
    (∀ (closed : Bool) (pre post : List LoopSignal) (s : Finset Int),
      hnEventsLoop closed (pre ++ LoopSignal.ctxDone :: post) s =
        hnEventsLoop closed (pre ++ [LoopSignal.ctxDone]) s) := by
  constructor
  · intro l f s
    exact ⟨sendDeltaTrace_shape l f s, sendDeltaTrace_snd l f s true⟩
  · intro closed pre post s
    induction pre generalizing s with
    | nil => rfl
    | cons sig rest ih =>
      cases sig with
      | ctxDone => rfl
      | tick lr f =>
        simp only [List.cons_append, hnEventsLoop]
        exact congrArg _ (ih (sendDeltaTrace closed lr f s).2)

/-- C10: when the delta of a periodic cycle is non-empty but every
identifier of the truncated delta decodes to an item that fails
validation (kind not story, or empty title or URL), the cycle emits no
event at all — no `new-story`, no `no-new-data`, no error event —
because the heartbeat fires only on an empty delta and
validation-skipped items emit nothing. -/
theorem deltaCycle_silent_on_all_invalid (L : List Int)
    (fetch : Int → ItemFetchResult) (seen : Finset Int)
    (hne : (markAndDiff L seen).1 ≠ [])
    (hinv : ∀ id ∈ (markAndDiff L seen).1.take maxNewStoriesToSend,
      ∃ story, fetch id = .ok story ∧
        (story.type ≠ "story" ∨ story.title = "" ∨ story.url = "")) :
    (sendDeltaHackerNewsStories (.ok L) fetch seen).1 = [] := by
  have hlen : ¬ (markAndDiff L seen).1.length = 0 := by
    simpa [List.length_eq_zero] using hne
  simp only [sendDeltaHackerNewsStories]
  rw [if_neg hlen]
  refine List.eq_nil_iff_forall_not_mem.mpr ?_
  intro e he
  rw [List.mem_flatten] at he
  obtain ⟨sub, hsub, hesub⟩ := he
  rw [List.mem_map] at hsub
  obtain ⟨id, hid, rfl⟩ := hsub
  rw [deliverStory_eq_nil_of_invalid (hinv id hid)] at hesub
  exact List.not_mem_nil _ hesub

/-- C10 witness: the fetched list [1] against an empty seen set has the
non-empty delta [1], yet with its item decoding to a `job` the cycle
emits nothing. -/
theorem deltaCycle_silent_on_all_invalid_witness :
    (sendDeltaHackerNewsStories (.ok [1]) jobItemFetch
      (∅ : Finset Int)).1 = [] :=
  deltaCycle_silent_on_all_invalid [1] jobItemFetch ∅ (by decide)
    (fun id _ =>
      ⟨sampleJob id, rfl,
        Or.inl (by
          intro hEq
          exact absurd hEq (by decide : ¬ ("job" : String) = "story"))⟩)

end Illu
